import Mathlib

/-!
Verification of the stock-ai backend's indicator library (`backend/indicators.py`)
and dummy prediction heuristic (`backend/main.py`).

Python floats are modelled by `ℚ`; the claims are about the exact arithmetic
formulas the code computes.  An indicator that returns `None` is modelled by
`Option ℚ`; for `calc_sma`, whose division can raise `ZeroDivisionError`, the
result type `PyFloat` additionally records that exception.
-/

/-- Result of a Python function returning an optional float, where the
division may also raise `ZeroDivisionError`. -/
inductive PyFloat where
  | none : PyFloat
  | val : ℚ → PyFloat
  | zeroDivError : PyFloat
deriving DecidableEq, Repr

/-- Python negative indexing `xs[-k]` (meaningful for `1 ≤ k ≤ xs.length`). -/
def pyGetNeg (xs : List ℚ) (k : Nat) : ℚ :=
  xs.getD (xs.length - k) 0

/-- Python slice `xs[s:]` for an arbitrary integer start `s`:
a negative start counts from the end, clamped at the ends of the list. -/
def pySliceFrom (xs : List ℚ) (s : ℤ) : List ℚ :=
  if 0 ≤ s then xs.drop s.toNat
  else xs.drop ((xs.length : ℤ) + s).toNat

/-- `calc_sma(values, window)` from `backend/indicators.py`:
returns `None` when `len(values) < window`, otherwise
`sum(values[-window:]) / window` (a `ZeroDivisionError` when `window = 0`). -/
def calc_sma (values : List ℚ) (window : ℤ) : PyFloat :=
  if (values.length : ℤ) < window then PyFloat.none
  else
    let slice_values := pySliceFrom values (-window)
    if window = 0 then PyFloat.zeroDivError
    else PyFloat.val (slice_values.sum / (window : ℚ))

/-- `calc_momentum(closes, period)` from `backend/indicators.py`:
`None` when `len(closes) < period + 1` or `closes[-period-1] == 0`,
otherwise `(closes[-1] - closes[-period-1]) / closes[-period-1]`. -/
def calc_momentum (closes : List ℚ) (period : Nat) : Option ℚ :=
  if closes.length < period + 1 then none
  else
    let base_price := pyGetNeg closes (period + 1)
    let last_price := pyGetNeg closes 1
    if base_price = 0 then none
    else some ((last_price - base_price) / base_price)

/-- The list `changes` in `calc_rsi`: consecutive differences
`closes[i] - closes[i-1]` for `i = 1, ..., len-1`. -/
def rsiChanges (closes : List ℚ) : List ℚ :=
  List.zipWith (fun a b => a - b) (closes.drop 1) closes

/-- One Wilder smoothing step of `calc_rsi`: from `(avg_gain, avg_loss)`
and the next change `ch`, compute the updated pair. -/
def rsiStep (period : Nat) (p : ℚ × ℚ) (ch : ℚ) : ℚ × ℚ :=
  ((p.1 * ((period : ℚ) - 1) + (if ch > 0 then ch else 0)) / (period : ℚ),
   (p.2 * ((period : ℚ) - 1) + (if ch < 0 then -ch else 0)) / (period : ℚ))

/-- The final `(avg_gain, avg_loss)` pair of `calc_rsi`: seed averages over
the first `period` changes, then Wilder smoothing over the remaining ones. -/
def rsiAvgs (closes : List ℚ) (period : Nat) : ℚ × ℚ :=
  let changes := rsiChanges closes
  let gains := (changes.take period).map (fun ch => if ch > 0 then ch else 0)
  let losses := (changes.take period).map (fun ch => if ch > 0 then 0 else -ch)
  let avg_gain := gains.sum / (period : ℚ)
  let avg_loss := losses.sum / (period : ℚ)
  (changes.drop period).foldl (rsiStep period) (avg_gain, avg_loss)

/-- `calc_rsi(closes, period)` from `backend/indicators.py`:
`None` when `len(closes) < period + 1`; otherwise `100.0` when the final
`avg_loss` is `0`, else `100 - 100 / (1 + avg_gain / avg_loss)`. -/
def calc_rsi (closes : List ℚ) (period : Nat) : Option ℚ :=
  if closes.length < period + 1 then none
  else
    let avgs := rsiAvgs closes period
    if avgs.2 = 0 then some 100
    else some (100 - 100 / (1 + avgs.1 / avgs.2))

/-- The fields of the prediction output the claims are about. -/
structure PredictionOut where
  prob_up : ℚ
  expected_return : ℚ
  model_version : String
deriving DecidableEq, Repr

/-- The prediction computation of `predict_dummy` (`backend/main.py`,
lines 270-318), on the oldest-first list of closes and `horizon_days`. -/
def predictDummy (closes : List ℚ) (horizon_days : Nat) : PredictionOut :=
  let latest_close := pyGetNeg closes 1
  let base_price := pyGetNeg closes (horizon_days + 1)
  let recent_return :=
    if base_price ≤ 0 then 0 else (latest_close - base_price) / base_price
  let rsi_14 := calc_rsi closes 14
  let mom_3d := calc_momentum closes 3
  let prob_up0 : ℚ := 0.5
  let prob_up1 := prob_up0 + max (-0.15) (min 0.15 (recent_return * 2))
  let prob_up2 :=
    match rsi_14 with
    | Option.none => prob_up1
    | Option.some r =>
        if r < 35 then prob_up1 + 0.05
        else if r > 70 then prob_up1 - 0.05
        else prob_up1
  let prob_up3 :=
    match mom_3d with
    | Option.none => prob_up2
    | Option.some m =>
        if m > 0 then prob_up2 + 0.03
        else if m < 0 then prob_up2 - 0.03
        else prob_up2
  let prob_up := max 0.05 (min 0.95 prob_up3)
  let expected_return_pct := recent_return * 100.0
  ⟨prob_up, expected_return_pct, "dummy_v1"⟩

/-- The prediction computation embedded in `get_stock_full_summary`
(`backend/main.py`, lines 357-394): the indicators are computed first,
then the same rule-based steps as in `predict_dummy`. -/
def summaryPredict (closes : List ℚ) (horizon_days : Nat) : PredictionOut :=
  let rsi_14 := calc_rsi closes 14
  let momentum_3d := calc_momentum closes 3
  let latest_close := pyGetNeg closes 1
  let base_price := pyGetNeg closes (horizon_days + 1)
  let recent_return :=
    if base_price ≤ 0 then 0 else (latest_close - base_price) / base_price
  let prob_up0 : ℚ := 0.5
  let prob_up1 := prob_up0 + max (-0.15) (min 0.15 (recent_return * 2))
  let prob_up2 :=
    match rsi_14 with
    | Option.none => prob_up1
    | Option.some r =>
        if r < 35 then prob_up1 + 0.05
        else if r > 70 then prob_up1 - 0.05
        else prob_up1
  let prob_up3 :=
    match momentum_3d with
    | Option.none => prob_up2
    | Option.some m =>
        if m > 0 then prob_up2 + 0.03
        else if m < 0 then prob_up2 - 0.03
        else prob_up2
  let prob_up := max 0.05 (min 0.95 prob_up3)
  let expected_return_pct := recent_return * 100.0
  ⟨prob_up, expected_return_pct, "dummy_v1"⟩

/-- Clamp `x` into `[lo, hi]`, the `max lo (min hi x)` pattern of the code. -/
def clampQ (lo hi x : ℚ) : ℚ := max lo (min hi x)

example : calc_sma [1, 2, 3, 4, 5] 3 = PyFloat.val 4 := by
  simp [calc_sma, pySliceFrom]; norm_num
example : calc_momentum [10, 10, 10, 12] 3 = some (1/5) := by
  simp [calc_momentum, pyGetNeg]; norm_num
example : calc_momentum [0, 1, 2, 3] 3 = none := by
  simp [calc_momentum, pyGetNeg]
example : calc_rsi [1, 2, 3] 14 = none := by
  simp [calc_rsi]
example :
    calc_rsi [15, 14, 13, 12, 11, 10, 9, 8, 7, 6, 5, 4, 3, 2, 1] 14 = some 0 := by
  simp [calc_rsi, rsiAvgs, rsiChanges, rsiStep]
  norm_num

/-- C3: the prediction heuristic of `predict_dummy` and the one embedded in
`get_stock_full_summary` agree on every sorted close series and horizon:
both return the same `prob_up`, `expected_return` and `model_version`. -/
theorem predict_heuristics_agree (closes : List ℚ) (horizon_days : Nat) :
    predictDummy closes horizon_days = summaryPredict closes horizon_days := rfl

/-- C4: `calc_momentum(closes, p)` (positive `p`) is `None` iff the series is
shorter than `p + 1` or the reference price `closes[-p-1]` is `0`; otherwise
it is the ratio `(closes[-1] - closes[-p-1]) / closes[-p-1]`.  The function is
total on these inputs (the embedding raises no exception). -/
theorem calc_momentum_spec (closes : List ℚ) (p : Nat) (hp : 1 ≤ p) :
    (calc_momentum closes p = none ↔
      closes.length < p + 1 ∨ pyGetNeg closes (p + 1) = 0) ∧
    (p + 1 ≤ closes.length → pyGetNeg closes (p + 1) ≠ 0 →
      calc_momentum closes p =
        some ((pyGetNeg closes 1 - pyGetNeg closes (p + 1)) / pyGetNeg closes (p + 1))) := by
  unfold calc_momentum
  constructor
  · by_cases h1 : closes.length < p + 1
    · simp [h1]
    · by_cases h2 : pyGetNeg closes (p + 1) = 0 <;> simp [h1, h2]
  · intro hlen hbase
    have h1 : ¬ closes.length < p + 1 := by omega
    rw [if_neg h1, if_neg hbase]

/-- C4 witness: the spec's example `Momentum([10,10,10,12], 3) = 0.2`. -/
theorem calc_momentum_spec_witness :
    1 ≤ 3 ∧
    ((calc_momentum [10, 10, 10, 12] 3 = none ↔
        ([10, 10, 10, 12] : List ℚ).length < 3 + 1 ∨
          pyGetNeg [10, 10, 10, 12] (3 + 1) = 0) ∧
      (3 + 1 ≤ ([10, 10, 10, 12] : List ℚ).length →
        pyGetNeg [10, 10, 10, 12] (3 + 1) ≠ 0 →
        calc_momentum [10, 10, 10, 12] 3 =
          some ((pyGetNeg [10, 10, 10, 12] 1 - pyGetNeg [10, 10, 10, 12] (3 + 1)) /
            pyGetNeg [10, 10, 10, 12] (3 + 1)))) :=
  ⟨by norm_num, calc_momentum_spec [10, 10, 10, 12] 3 (by norm_num)⟩

/-- C5: `calc_sma(values, w)` for positive `w` is `None` iff
`len(values) < w`, and otherwise is the arithmetic mean of the last `w`
elements. -/
theorem calc_sma_spec (values : List ℚ) (w : Nat) (hw : 1 ≤ w) :
    (calc_sma values (w : ℤ) = PyFloat.none ↔ values.length < w) ∧
    (w ≤ values.length →
      calc_sma values (w : ℤ) =
        PyFloat.val ((values.drop (values.length - w)).sum / (w : ℚ))) := by
  unfold calc_sma pySliceFrom
  have hcast : ((values.length : ℤ) < (w : ℤ)) ↔ values.length < w := by
    exact_mod_cast Iff.rfl
  constructor
  · split_ifs with h1 h2 <;> simp_all
  · intro hlen
    have h1 : ¬ ((values.length : ℤ) < (w : ℤ)) := by omega
    have h2 : ¬ ((0 : ℤ) ≤ -(w : ℤ)) := by omega
    have h3 : ¬ ((w : ℤ) = 0) := by omega
    rw [if_neg h1, if_neg h2, if_neg h3]
    have h4 : ((values.length : ℤ) + -(w : ℤ)).toNat = values.length - w := by omega
    rw [h4]
    norm_cast

/-- C5 witness: the spec's example `SMA([1,2,3,4,5], 3) = 4.0`. -/
theorem calc_sma_spec_witness :
    1 ≤ 3 ∧
    ((calc_sma [1, 2, 3, 4, 5] (3 : ℤ) = PyFloat.none ↔
        ([1, 2, 3, 4, 5] : List ℚ).length < 3) ∧
      (3 ≤ ([1, 2, 3, 4, 5] : List ℚ).length →
        calc_sma [1, 2, 3, 4, 5] (3 : ℤ) =
          PyFloat.val
            ((([1, 2, 3, 4, 5] : List ℚ).drop
                (([1, 2, 3, 4, 5] : List ℚ).length - 3)).sum / (3 : ℚ)))) :=
  ⟨by norm_num, calc_sma_spec [1, 2, 3, 4, 5] 3 (by norm_num)⟩

/-- C10: `calc_sma` never validates `window`: for `window ≤ 0` the length
guard can never fire (so the result is never `None`), and for `window = 0`
the final division is a division by zero on every input. -/
theorem calc_sma_no_window_validation (values : List ℚ) (w : ℤ) (hw : w ≤ 0) :
    calc_sma values w ≠ PyFloat.none ∧
    (w = 0 → calc_sma values w = PyFloat.zeroDivError) := by
  unfold calc_sma
  have hguard : ¬ ((values.length : ℤ) < w) := by
    have : (0 : ℤ) ≤ (values.length : ℤ) := Int.ofNat_nonneg _
    omega
  rw [if_neg hguard]
  constructor
  · split_ifs <;> simp
  · intro h0
    rw [if_pos h0]

/-- C10 witness: `window = 0` on an empty list yields a zero division. -/
theorem calc_sma_no_window_validation_witness :
    (0 : ℤ) ≤ 0 ∧
    (calc_sma [] 0 ≠ PyFloat.none ∧
      ((0 : ℤ) = 0 → calc_sma [] 0 = PyFloat.zeroDivError)) :=
  ⟨le_refl 0, calc_sma_no_window_validation [] 0 (le_refl 0)⟩

/-- C6: on every series meeting the length precondition and every
`horizon_days ≥ 1`, the returned `prob_up` lies in `[0.05, 0.95]`, in both
the standalone prediction and the combined summary. -/
theorem prob_up_clamped (closes : List ℚ) (n : Nat) (hn : 1 ≤ n)
    (hlen : n + 1 ≤ closes.length) :
    ((0.05 : ℚ) ≤ (predictDummy closes n).prob_up ∧
      (predictDummy closes n).prob_up ≤ 0.95) ∧
    ((0.05 : ℚ) ≤ (summaryPredict closes n).prob_up ∧
      (summaryPredict closes n).prob_up ≤ 0.95) := by
  have key : ∀ x : ℚ, (0.05 : ℚ) ≤ max 0.05 (min 0.95 x) ∧
      max (0.05 : ℚ) (min 0.95 x) ≤ 0.95 :=
    fun x => ⟨le_max_left _ _, max_le (by norm_num) (min_le_left _ _)⟩
  exact ⟨key _, key _⟩

/-- C6 witness at the series `[1, 2, 3, 4]` with horizon 3. -/
theorem prob_up_clamped_witness :
    (1 ≤ 3 ∧ 3 + 1 ≤ ([1, 2, 3, 4] : List ℚ).length) ∧
    (((0.05 : ℚ) ≤ (predictDummy [1, 2, 3, 4] 3).prob_up ∧
        (predictDummy [1, 2, 3, 4] 3).prob_up ≤ 0.95) ∧
      ((0.05 : ℚ) ≤ (summaryPredict [1, 2, 3, 4] 3).prob_up ∧
        (summaryPredict [1, 2, 3, 4] 3).prob_up ≤ 0.95)) :=
  ⟨by norm_num, prob_up_clamped [1, 2, 3, 4] 3 (by norm_num) (by norm_num)⟩

/-- C1: on every oldest-first series with at least `horizon_days + 1` points
and `horizon_days ≥ 1`, the prediction returns
`recent_return = 0` when `closes[-(horizon_days+1)] ≤ 0` and
`(latest - base)/base` otherwise,
`prob_up = clamp(0.5 + clamp(recent_return*2, -0.15, 0.15) + rsi-adjustment
+ momentum-adjustment, 0.05, 0.95)` with the `±0.05` RSI and `±0.03`
momentum adjustments, `expected_return = recent_return * 100`, and
`model_version = "dummy_v1"`. -/
theorem predict_dummy_formula (closes : List ℚ) (n : Nat) (hn : 1 ≤ n)
    (hlen : n + 1 ≤ closes.length) :
    predictDummy closes n =
      { prob_up :=
          clampQ 0.05 0.95
            ((0.5 : ℚ)
              + clampQ (-0.15) 0.15
                  ((if pyGetNeg closes (n + 1) ≤ 0 then 0
                    else (pyGetNeg closes 1 - pyGetNeg closes (n + 1)) /
                      pyGetNeg closes (n + 1)) * 2)
              + (match calc_rsi closes 14 with
                 | Option.none => 0
                 | Option.some r => if r < 35 then 0.05 else if r > 70 then -0.05 else 0)
              + (match calc_momentum closes 3 with
                 | Option.none => 0
                 | Option.some m => if m > 0 then 0.03 else if m < 0 then -0.03 else 0)),
        expected_return :=
          (if pyGetNeg closes (n + 1) ≤ 0 then 0
           else (pyGetNeg closes 1 - pyGetNeg closes (n + 1)) /
             pyGetNeg closes (n + 1)) * 100,
        model_version := "dummy_v1" } := by
  rcases hr : calc_rsi closes 14 with _ | r <;>
    rcases hm : calc_momentum closes 3 with _ | m <;>
      simp only [predictDummy, clampQ, hr, hm, PredictionOut.mk.injEq] <;>
        refine ⟨?_, by norm_num, trivial⟩ <;>
          split_ifs <;>
            (congr 2 <;> ring)

/-- C1 witness at the series `[2, 4, 6, 8]` with horizon 3. -/
theorem predict_dummy_formula_witness :
    (1 ≤ 3 ∧ 3 + 1 ≤ ([2, 4, 6, 8] : List ℚ).length) ∧
    predictDummy [2, 4, 6, 8] 3 =
      { prob_up :=
          clampQ 0.05 0.95
            ((0.5 : ℚ)
              + clampQ (-0.15) 0.15
                  ((if pyGetNeg [2, 4, 6, 8] (3 + 1) ≤ 0 then 0
                    else (pyGetNeg [2, 4, 6, 8] 1 - pyGetNeg [2, 4, 6, 8] (3 + 1)) /
                      pyGetNeg [2, 4, 6, 8] (3 + 1)) * 2)
              + (match calc_rsi [2, 4, 6, 8] 14 with
                 | Option.none => 0
                 | Option.some r => if r < 35 then 0.05 else if r > 70 then -0.05 else 0)
              + (match calc_momentum [2, 4, 6, 8] 3 with
                 | Option.none => 0
                 | Option.some m => if m > 0 then 0.03 else if m < 0 then -0.03 else 0)),
        expected_return :=
          (if pyGetNeg [2, 4, 6, 8] (3 + 1) ≤ 0 then 0
           else (pyGetNeg [2, 4, 6, 8] 1 - pyGetNeg [2, 4, 6, 8] (3 + 1)) /
             pyGetNeg [2, 4, 6, 8] (3 + 1)) * 100,
        model_version := "dummy_v1" } :=
  ⟨by norm_num, predict_dummy_formula [2, 4, 6, 8] 3 (by norm_num) (by norm_num)⟩

lemma if_gain_eq_max (ch : ℚ) : (if ch > 0 then ch else 0) = max ch 0 := by
  rcases lt_or_le 0 ch with h | h
  · rw [if_pos h, max_eq_left h.le]
  · rw [if_neg (not_lt.2 h), max_eq_right h]

lemma if_seed_loss_eq_max (ch : ℚ) : (if ch > 0 then (0 : ℚ) else -ch) = max (-ch) 0 := by
  rcases lt_or_le 0 ch with h | h
  · rw [if_pos h, max_eq_right (neg_nonpos.2 h.le)]
  · rw [if_neg (not_lt.2 h), max_eq_left (neg_nonneg.2 h)]

lemma if_loss_eq_max (ch : ℚ) : (if ch < 0 then -ch else 0) = max (-ch) 0 := by
  rcases lt_or_le ch 0 with h | h
  · rw [if_pos h, max_eq_left (neg_nonneg.2 h.le)]
  · rw [if_neg (not_lt.2 h), max_eq_right (neg_nonpos.2 h)]

/-- C2: `calc_rsi(closes, period)` is `None` when `len(closes) < period + 1`;
otherwise it seeds `avg_gain`/`avg_loss` as plain means of `max(d, 0)` and
`max(-d, 0)` over the first `period` differences, applies Wilder smoothing
`avg = (avg*(period-1) + contribution)/period` to each remaining difference
in order, and returns `100` exactly when the final `avg_loss` is `0`, else
`100 - 100/(1 + avg_gain/avg_loss)`. -/
theorem calc_rsi_formula (closes : List ℚ) (period : Nat) (hp : 1 ≤ period) :
    (closes.length < period + 1 → calc_rsi closes period = none) ∧
    (period + 1 ≤ closes.length →
      calc_rsi closes period =
        some (
          let diffs := List.zipWith (fun a b => a - b) (closes.drop 1) closes
          let avg_gain0 := ((diffs.take period).map (fun d => max d 0)).sum / (period : ℚ)
          let avg_loss0 := ((diffs.take period).map (fun d => max (-d) 0)).sum / (period : ℚ)
          let fin := (diffs.drop period).foldl
            (fun q d =>
              ((q.1 * ((period : ℚ) - 1) + max d 0) / (period : ℚ),
               (q.2 * ((period : ℚ) - 1) + max (-d) 0) / (period : ℚ)))
            (avg_gain0, avg_loss0)
          if fin.2 = 0 then 100 else 100 - 100 / (1 + fin.1 / fin.2))) := by
  have hgain : (fun ch : ℚ => if ch > 0 then ch else 0) = fun d => max d 0 :=
    funext if_gain_eq_max
  have hloss0 : (fun ch : ℚ => if ch > 0 then (0 : ℚ) else -ch) = fun d => max (-d) 0 :=
    funext if_seed_loss_eq_max
  have hstep : rsiStep period = fun (q : ℚ × ℚ) (d : ℚ) =>
      ((q.1 * ((period : ℚ) - 1) + max d 0) / (period : ℚ),
       (q.2 * ((period : ℚ) - 1) + max (-d) 0) / (period : ℚ)) := by
    funext q d
    unfold rsiStep
    rw [if_gain_eq_max, if_loss_eq_max]
  constructor
  · intro h
    simp [calc_rsi, h]
  · intro h
    have hguard : ¬ closes.length < period + 1 := by omega
    simp only [calc_rsi, rsiAvgs, rsiChanges, hgain, hloss0, hstep, if_neg hguard]
    split_ifs <;> rfl

/-- C2 witness at the series `[1, 2]` with period 1. -/
theorem calc_rsi_formula_witness :
    1 ≤ 1 ∧
    ((([1, 2] : List ℚ).length < 1 + 1 → calc_rsi [1, 2] 1 = none) ∧
      (1 + 1 ≤ ([1, 2] : List ℚ).length →
        calc_rsi [1, 2] 1 =
          some (
            let diffs := List.zipWith (fun a b => a - b) (([1, 2] : List ℚ).drop 1) [1, 2]
            let avg_gain0 := ((diffs.take 1).map (fun d => max d 0)).sum / ((1 : Nat) : ℚ)
            let avg_loss0 := ((diffs.take 1).map (fun d => max (-d) 0)).sum / ((1 : Nat) : ℚ)
            let fin := (diffs.drop 1).foldl
              (fun q d =>
                ((q.1 * (((1 : Nat) : ℚ) - 1) + max d 0) / ((1 : Nat) : ℚ),
                 (q.2 * (((1 : Nat) : ℚ) - 1) + max (-d) 0) / ((1 : Nat) : ℚ)))
              (avg_gain0, avg_loss0)
            if fin.2 = 0 then 100 else 100 - 100 / (1 + fin.1 / fin.2)))) :=
  ⟨le_refl 1, calc_rsi_formula [1, 2] 1 (le_refl 1)⟩


lemma foldl_rsiStep_nonneg (period : Nat) (hp : 1 ≤ period) :
    ∀ (l : List ℚ) (q : ℚ × ℚ), 0 ≤ q.1 → 0 ≤ q.2 →
      0 ≤ (l.foldl (rsiStep period) q).1 ∧ 0 ≤ (l.foldl (rsiStep period) q).2 := by
  have hper : (0 : ℚ) ≤ (period : ℚ) := Nat.cast_nonneg _
  have hper1 : (0 : ℚ) ≤ (period : ℚ) - 1 := by
    have : (1 : ℚ) ≤ (period : ℚ) := by exact_mod_cast hp
    linarith
  intro l
  induction l with
  | nil => intro q h1 h2; exact ⟨h1, h2⟩
  | cons ch t ih =>
      intro q h1 h2
      apply ih
      · show 0 ≤ (rsiStep period q ch).1
        unfold rsiStep
        apply div_nonneg _ hper
        apply add_nonneg (mul_nonneg h1 hper1)
        split_ifs with h
        · exact h.le
        · exact le_refl 0
      · show 0 ≤ (rsiStep period q ch).2
        unfold rsiStep
        apply div_nonneg _ hper
        apply add_nonneg (mul_nonneg h2 hper1)
        split_ifs with h
        · linarith
        · exact le_refl 0

lemma rsiAvgs_nonneg (closes : List ℚ) (period : Nat) (hp : 1 ≤ period) :
    0 ≤ (rsiAvgs closes period).1 ∧ 0 ≤ (rsiAvgs closes period).2 := by
  have hper : (0 : ℚ) ≤ (period : ℚ) := Nat.cast_nonneg _
  unfold rsiAvgs
  apply foldl_rsiStep_nonneg period hp
  · apply div_nonneg _ hper
    apply List.sum_nonneg
    intro x hx
    obtain ⟨ch, _, rfl⟩ := List.mem_map.1 hx
    split_ifs with h
    · exact h.le
    · exact le_refl 0
  · apply div_nonneg _ hper
    apply List.sum_nonneg
    intro x hx
    obtain ⟨ch, _, rfl⟩ := List.mem_map.1 hx
    split_ifs with h
    · exact le_refl 0
    · linarith [not_lt.1 h]

/-- C7 (amended): for every series meeting the length precondition the RSI
value is in the closed interval `[0, 100]`, and the non-degenerate branch
`100 - 100/(1 + RS)` is strictly below `100`.  The original claim's strict
lower bound `0 < RSI` fails (see the counterexample): an all-losses series
gives `avg_gain = 0` and hence RSI exactly `0`. -/
theorem calc_rsi_range (closes : List ℚ) (period : Nat) (hp : 1 ≤ period)
    (hlen : period + 1 ≤ closes.length) :
    ∃ r, calc_rsi closes period = some r ∧ 0 ≤ r ∧ r ≤ 100 ∧
      ((rsiAvgs closes period).2 ≠ 0 → r < 100) := by
  have hnn := rsiAvgs_nonneg closes period hp
  unfold calc_rsi
  rw [if_neg (by omega)]
  by_cases hz : (rsiAvgs closes period).2 = 0
  · rw [if_pos hz]
    exact ⟨100, rfl, by norm_num, by norm_num, fun h => absurd hz h⟩
  · rw [if_neg hz]
    have hl : 0 < (rsiAvgs closes period).2 := lt_of_le_of_ne hnn.2 (Ne.symm hz)
    have hrs : 0 ≤ (rsiAvgs closes period).1 / (rsiAvgs closes period).2 :=
      div_nonneg hnn.1 hl.le
    have h1 : (1 : ℚ) ≤ 1 + (rsiAvgs closes period).1 / (rsiAvgs closes period).2 := by
      linarith
    have hd : 100 / (1 + (rsiAvgs closes period).1 / (rsiAvgs closes period).2) ≤ 100 :=
      div_le_self (by norm_num) h1
    have hdpos : 0 < 100 / (1 + (rsiAvgs closes period).1 / (rsiAvgs closes period).2) :=
      div_pos (by norm_num) (by linarith)
    exact ⟨_, rfl, by linarith, by linarith, fun _ => by linarith⟩

/-- C7 counterexample: a strictly decreasing 15-point series has
`RSI(closes, 14) = 0`, which is not strictly greater than `0`. -/
theorem calc_rsi_range_counterexample :
    14 + 1 ≤ ([15, 14, 13, 12, 11, 10, 9, 8, 7, 6, 5, 4, 3, 2, 1] : List ℚ).length ∧
    calc_rsi [15, 14, 13, 12, 11, 10, 9, 8, 7, 6, 5, 4, 3, 2, 1] 14 = some 0 ∧
    ¬ ((0 : ℚ) < 0) := by
  refine ⟨by norm_num, ?_, by norm_num⟩
  simp [calc_rsi, rsiAvgs, rsiChanges, rsiStep]
  norm_num

lemma foldl_rsiStep_loss_zero (period : Nat) :
    ∀ (l : List ℚ) (q : ℚ × ℚ), q.2 = 0 → (∀ ch ∈ l, ¬ ch < 0) →
      (l.foldl (rsiStep period) q).2 = 0 := by
  intro l
  induction l with
  | nil => intro q h2 _; exact h2
  | cons ch t ih =>
      intro q h2 hl
      apply ih
      · show (rsiStep period q ch).2 = 0
        unfold rsiStep
        rw [if_neg (hl ch (List.mem_cons_self _ _)), h2]
        simp
      · intro x hx
        exact hl x (List.mem_cons_of_mem _ hx)

lemma zipWith_sub_replicate (c : ℚ) (m : Nat) :
    List.zipWith (fun a b => a - b) (List.replicate m c) (c :: List.replicate m c) =
      List.replicate m 0 := by
  induction m with
  | zero => rfl
  | succ k ih =>
      rw [List.replicate_succ]
      simp only [List.zipWith_cons_cons, sub_self]
      rw [ih]
      rfl

lemma rsiChanges_replicate (c : ℚ) (n : Nat) :
    rsiChanges (List.replicate n c) = List.replicate (n - 1) 0 := by
  cases n with
  | zero => rfl
  | succ m =>
      unfold rsiChanges
      rw [List.replicate_succ]
      simp only [List.drop_succ_cons, List.drop_zero, Nat.succ_sub_one]
      exact zipWith_sub_replicate c m

/-- C9: a completely flat series of length at least `period + 1` yields
RSI exactly `100`: zero differences contribute `0` to both accumulators, the
final `avg_loss` is `0`, and the maximal-RSI branch fires. -/
theorem calc_rsi_flat (c : ℚ) (n period : Nat) (hp : 1 ≤ period)
    (hlen : period + 1 ≤ n) :
    calc_rsi (List.replicate n c) period = some 100 := by
  unfold calc_rsi
  rw [if_neg (by simp only [List.length_replicate]; omega)]
  have hz : (rsiAvgs (List.replicate n c) period).2 = 0 := by
    unfold rsiAvgs
    rw [rsiChanges_replicate]
    apply foldl_rsiStep_loss_zero
    · show (_, ((((List.replicate (n - 1) (0 : ℚ)).take period).map
        (fun ch => if ch > 0 then (0 : ℚ) else -ch)).sum / (period : ℚ))).2 = 0
      simp [List.take_replicate, List.map_replicate, List.sum_replicate]
    · intro ch hch
      have := List.mem_of_mem_drop hch
      rw [List.eq_of_mem_replicate this]
      norm_num
  rw [if_pos hz]

lemma rsiChanges_pos_of_chain :
    ∀ closes : List ℚ, List.Chain' (fun a b => a < b) closes →
      ∀ x ∈ rsiChanges closes, 0 < x := by
  intro closes
  induction closes with
  | nil => intro _ x hx; simp [rsiChanges] at hx
  | cons a t ih =>
      intro hchain x hx
      cases t with
      | nil => simp [rsiChanges] at hx
      | cons b t2 =>
          rw [show rsiChanges (a :: b :: t2) = (b - a) :: rsiChanges (b :: t2) from rfl] at hx
          rcases List.mem_cons.1 hx with rfl | hx2
          · have hab : a < b := (List.chain'_cons.1 hchain).1
            linarith
          · exact ih (List.chain'_cons.1 hchain).2 x hx2

/-- C8 (amended): for every strictly increasing series of positive prices,
`Momentum(closes, 3)` is available and strictly positive once the series has
at least 4 points, and `RSI(closes, 14)` is exactly `100` once it has at
least 15 points.  The original claim omitted positivity of the prices and
fails on strictly increasing series through `0` or negative prices (see the
counterexample). -/
theorem increasing_series_indicators (closes : List ℚ)
    (hmono : List.Chain' (fun a b : ℚ => a < b) closes)
    (hpos : ∀ x ∈ closes, 0 < x) :
    (4 ≤ closes.length → ∃ m, calc_momentum closes 3 = some m ∧ 0 < m) ∧
    (15 ≤ closes.length → calc_rsi closes 14 = some 100) := by
  constructor
  · intro h4
    have hb : closes.length - 4 < closes.length := by omega
    have hl : closes.length - 1 < closes.length := by omega
    have hbase_eq : pyGetNeg closes 4 = closes.get ⟨closes.length - 4, hb⟩ := by
      unfold pyGetNeg
      rw [List.getD_eq_getElem _ _ hb]
      simp [List.get_eq_getElem]
    have hlast_eq : pyGetNeg closes 1 = closes.get ⟨closes.length - 1, hl⟩ := by
      unfold pyGetNeg
      rw [List.getD_eq_getElem _ _ hl]
      simp [List.get_eq_getElem]
    have hpw : List.Pairwise (fun a b : ℚ => a < b) closes :=
      List.chain'_iff_pairwise.1 hmono
    have hba : closes.get ⟨closes.length - 4, hb⟩ < closes.get ⟨closes.length - 1, hl⟩ := by
      apply List.pairwise_iff_get.1 hpw
      show closes.length - 4 < closes.length - 1
      omega
    have hbase_pos : 0 < pyGetNeg closes 4 := by
      rw [hbase_eq]
      exact hpos _ (List.get_mem _ _ _)
    unfold calc_momentum
    rw [if_neg (by omega), if_neg (by positivity)]
    refine ⟨_, rfl, ?_⟩
    apply div_pos _ hbase_pos
    rw [hbase_eq, hlast_eq]
    linarith
  · intro h15
    unfold calc_rsi
    rw [if_neg (by omega)]
    have hposch := rsiChanges_pos_of_chain closes hmono
    have hz : (rsiAvgs closes 14).2 = 0 := by
      unfold rsiAvgs
      apply foldl_rsiStep_loss_zero
      · have hsum : (((rsiChanges closes).take 14).map
            (fun ch => if ch > 0 then (0 : ℚ) else -ch)).sum = 0 := by
          apply List.sum_eq_zero
          intro x hx
          obtain ⟨ch, hch, rfl⟩ := List.mem_map.1 hx
          rw [if_pos (hposch ch (List.mem_of_mem_take hch))]
        show (((rsiChanges closes).take 14).map
          (fun ch => if ch > 0 then (0 : ℚ) else -ch)).sum / ((14 : Nat) : ℚ) = 0
        rw [hsum, zero_div]
      · intro ch hch
        exact not_lt.2 (hposch ch (List.mem_of_mem_drop hch)).le
    rw [if_pos hz]

/-- C8 counterexample: `[-4, -3, -2, -1]` is strictly increasing with 4
points, yet `Momentum(closes, 3) = -3/4`, which is not strictly positive. -/
theorem momentum_increasing_counterexample :
    List.Chain' (fun a b : ℚ => a < b) [-4, -3, -2, -1] ∧
    4 ≤ ([-4, -3, -2, -1] : List ℚ).length ∧
    calc_momentum [-4, -3, -2, -1] 3 = some (-3/4) ∧
    ¬ ((0 : ℚ) < -3/4) := by
  refine ⟨?_, by norm_num, ?_, by norm_num⟩
  · simp only [List.chain'_cons, List.chain'_singleton, and_true]
    norm_num
  · simp [calc_momentum, pyGetNeg]
    norm_num

/-- C7 witness at the series `[1, 3, 2]` with period 1. -/
theorem calc_rsi_range_witness :
    (1 ≤ 1 ∧ 1 + 1 ≤ ([1, 3, 2] : List ℚ).length) ∧
    ∃ r, calc_rsi [1, 3, 2] 1 = some r ∧ 0 ≤ r ∧ r ≤ 100 ∧
      ((rsiAvgs [1, 3, 2] 1).2 ≠ 0 → r < 100) :=
  ⟨by norm_num, calc_rsi_range [1, 3, 2] 1 (le_refl 1) (by norm_num)⟩

/-- C9 witness: the flat series `[5, 5]` with period 1. -/
theorem calc_rsi_flat_witness :
    (1 ≤ 1 ∧ 1 + 1 ≤ 2) ∧ calc_rsi (List.replicate 2 (5 : ℚ)) 1 = some 100 :=
  ⟨by norm_num, calc_rsi_flat 5 2 1 (le_refl 1) (by norm_num)⟩

/-- C8 witness at the strictly increasing positive series `[1, 2, 3, 4]`. -/
theorem increasing_series_indicators_witness :
    (List.Chain' (fun a b : ℚ => a < b) [1, 2, 3, 4] ∧
      ∀ x ∈ ([1, 2, 3, 4] : List ℚ), 0 < x) ∧
    ((4 ≤ ([1, 2, 3, 4] : List ℚ).length →
        ∃ m, calc_momentum [1, 2, 3, 4] 3 = some m ∧ 0 < m) ∧
      (15 ≤ ([1, 2, 3, 4] : List ℚ).length → calc_rsi [1, 2, 3, 4] 14 = some 100)) := by
  have h1 : List.Chain' (fun a b : ℚ => a < b) [1, 2, 3, 4] := by
    simp only [List.chain'_cons, List.chain'_singleton, and_true]
    norm_num
  have h2 : ∀ x ∈ ([1, 2, 3, 4] : List ℚ), 0 < x := by
    intro x hx
    fin_cases hx <;> norm_num
  exact ⟨⟨h1, h2⟩, increasing_series_indicators [1, 2, 3, 4] h1 h2⟩
